import Mathlib

/-!
Shallow embedding of the Smart-Buddy core: the review scheduler
(`handleQuizComplete` in `src/App.tsx`, `getDueWords` in
`src/components/SetupScreen.tsx`) and the account/library store
(`StorageService` in `src/services/storageService.ts`).

JavaScript conventions mapped to Lean:
* optional fields become `Option`;
* `x || 0` on an optional number becomes `Option.getD x 0` (the value `0`
  is falsy in JS, and `0 || 0 = 0`, so the two agree);
* `!w.lastReviewed` is true exactly when the field is `undefined` or `0`,
  i.e. when `w.lastReviewed.getD 0 = 0`;
* numeric timestamps, intervals and counters are `Nat` (they are
  non-negative integers in every reachable state);
* a thrown `Error` becomes an explicit error value, with the storage
  state returned unchanged alongside it;
* `Math.round((correctCount / results.length) * 100)` is `NaN` when
  `results` is empty; the score field is modelled as `Option Nat`, with
  `none` standing for that NaN result. For a non-empty result list the
  JS expression is evaluated in IEEE-754 binary64: the embedding
  implements the two double operations (`c/t`, then `*100`) exactly -
  round to nearest, ties to even, on the exact rational values - and
  then ECMA `Math.round` (nearest integer, ties toward +∞, applied to
  the exact value of the double). This matters: `(23/40)*100` evaluates
  to `57.49999999999999` in doubles, so the program records score 57
  where exact rational rounding of `57.5` would give 58.
-/

namespace SmartBuddy

/-- `WordPair` from `src/types.ts`: id, english, chinese, optional
category, and the SRS fields `lastReviewed` (timestamp), `reviewInterval`
(days) and `proficiency` (0-5). -/
structure WordPair where
  id : String
  english : String
  chinese : String
  category : Option String
  lastReviewed : Option Nat
  reviewInterval : Option Nat
  proficiency : Option Nat
deriving Repr, DecidableEq

/-- `WordLibrary` from `src/types.ts` is an object mapping category
names to arrays of words; JS objects keep string-key insertion order, so
it is modelled as an ordered association list. -/
abbrev WordLibrary := List (String × List WordPair)

/-- `QuizResult` from `src/types.ts`. -/
structure QuizResult where
  wordId : String
  isCorrect : Bool
  userAnswer : String
  correctAnswer : String
  timestamp : Nat
deriving Repr, DecidableEq

/-- `TestRecord` from `src/types.ts`; `score` is `Option Nat` because the
JS computation produces `NaN` on an empty result list (see module
comment). -/
structure TestRecord where
  id : String
  date : Nat
  score : Option Nat
  total : Nat
  wrongWords : List (String × String)
deriving Repr, DecidableEq

/-- The per-word SRS update of `handleQuizComplete`
(`src/App.tsx` lines 84-94): on a correct answer the interval goes
`0 ↦ 1`, otherwise doubles, and proficiency is `min (p+1) 5`; on an
incorrect answer the interval resets to `0` and proficiency is
`max (p-1) 0` (Nat subtraction floors at 0); `lastReviewed` is set to
`now` unconditionally. -/
def updateWordSRS (isCorrect : Bool) (now : Nat) (w : WordPair) : WordPair :=
  let currentInterval := w.reviewInterval.getD 0
  let newInterval :=
    if isCorrect then (if currentInterval = 0 then 1 else currentInterval * 2)
    else 0
  { w with
    lastReviewed := some now
    reviewInterval := some newInterval
    proficiency := some (if isCorrect then min (w.proficiency.getD 0 + 1) 5
                         else w.proficiency.getD 0 - 1) }

/-- `newLibrary[cat].findIndex(w => w.id === res.wordId)` followed by
replacement at that index (`src/App.tsx` lines 80-94): the first word of
the category whose id matches is replaced by its SRS-updated copy; a
category with no match is returned unchanged. -/
def updateFirstMatch (res : QuizResult) (now : Nat) :
    List WordPair → List WordPair
  | [] => []
  | w :: rest =>
    if w.id = res.wordId then updateWordSRS res.isCorrect now w :: rest
    else w :: updateFirstMatch res now rest

/-- One iteration of the `results.forEach` loop over the library
(`src/App.tsx` lines 79-96): the `for (const cat in newLibrary)` loop
visits every category and performs the findIndex-and-replace in each. -/
def applyResultToLibrary (res : QuizResult) (now : Nat)
    (lib : WordLibrary) : WordLibrary :=
  lib.map fun cw => (cw.1, updateFirstMatch res now cw.2)

/-- The library after the whole `results.forEach` loop of
`handleQuizComplete` (`src/App.tsx` lines 74-97). -/
def applyResultsToLibrary (lib : WordLibrary) (results : List QuizResult)
    (now : Nat) : WordLibrary :=
  results.foldl (fun l r => applyResultToLibrary r now l) lib

/-- `wrongWords` accumulated by `handleQuizComplete`
(`src/App.tsx` line 76): for each incorrect result the pair
`{english: res.correctAnswer, chinese: res.userAnswer || 'Empty'}`. -/
def wrongWordsOf (results : List QuizResult) : List (String × String) :=
  results.filterMap fun r =>
    if r.isCorrect then none
    else some (r.correctAnswer,
               if r.userAnswer = "" then "Empty" else r.userAnswer)

/-- `⌊log2 n⌋` computed by fueled chunked division (the core `Nat.log2`
is defined by well-founded recursion and does not reduce in the
kernel): each stage divides out a power-of-two chunk while the number
is at least that chunk, counting bits. -/
def log2Chunk (chunk bits : Nat) : Nat → Nat → Nat × Nat
  | 0, n => (0, n)
  | fuel + 1, n =>
    if chunk ≤ n then
      let p := log2Chunk chunk bits fuel (n / chunk)
      (p.1 + bits, p.2)
    else (0, n)

/-- `⌊log2 n⌋` for `n ≥ 1` (and `0` at `n = 0`): chunk stages
`2^32, 2^16, 2^8, 2^4, 2^2, 2`, correct for every `n < 2^160` (every
number this file evaluates it on is below `2^128`). -/
def natLog2 (n : Nat) : Nat :=
  let s1 := log2Chunk 4294967296 32 4 n
  let s2 := log2Chunk 65536 16 2 s1.2
  let s3 := log2Chunk 256 8 2 s2.2
  let s4 := log2Chunk 16 4 2 s3.2
  let s5 := log2Chunk 4 2 2 s4.2
  let s6 := log2Chunk 2 1 1 s5.2
  s1.1 + s2.1 + s3.1 + s4.1 + s5.1 + s6.1

/-- IEEE-754 binary64 rounding (round to nearest, ties to even) of the
positive rational `a / b`, for values in the normal range, returned as
mantissa and exponent: the resulting double's exact value is
`m * 2^(e-52)` with `2^52 ≤ m ≤ 2^53`. The exponent
`e = ⌊log2 (a/b)⌋` is read off `⌊a * 2^64 / b⌋` (exact for
`a/b ≥ 2^-63`); the significand `a * 2^(52-e) / b` is rounded to an
integer with ties to even. -/
def fl64 (a b : Nat) : Nat × Int :=
  let e : Int := (natLog2 (a * 18446744073709551616 / b) : Int) - 64
  let shift : Int := 52 - e
  let n := a * 2 ^ shift.toNat
  let d := b * 2 ^ (-shift).toNat
  let m0 := n / d
  let r := n % d
  let m := if d < 2 * r then m0 + 1
           else if 2 * r < d then m0
           else if m0 % 2 = 0 then m0 else m0 + 1
  (m, e)

/-- `Math.round((correctCount / results.length) * 100)`
(`src/App.tsx` line 105), evaluated the way the program evaluates it,
in IEEE-754 binary64: `none` models the `NaN` produced by the division
by zero on an empty result list; `0/t` is the exact double `+0`, giving
score 0; otherwise the double `c/t` is formed (`fl64 c t`), multiplied
by 100 and rounded again (`fl64` of the exact product), and ECMA
`Math.round` - nearest integer, ties toward +∞ - is applied to the
exact value `m * 2^(e-52)` of the resulting double
(`⌊m/2^k + 1/2⌋ = (2*m + 2^k) / 2^(k+1)` for `k = 52 - e > 0`). -/
def scoreOf (correctCount total : Nat) : Option Nat :=
  if total = 0 then none
  else if correctCount = 0 then some 0
  else
    let p1 := fl64 correctCount total
    let a2 := if 52 ≤ p1.2 then p1.1 * 100 * 2 ^ (p1.2 - 52).toNat
              else p1.1 * 100
    let b2 := if 52 ≤ p1.2 then 1 else 2 ^ ((52 : Int) - p1.2).toNat
    let p2 := fl64 a2 b2
    some (if 52 ≤ p2.2 then p2.1 * 2 ^ (p2.2 - 52).toNat
          else (2 * p2.1 + 2 ^ ((52 : Int) - p2.2).toNat) /
               2 ^ (((52 : Int) - p2.2).toNat + 1))

/-- Pairs `(correctCount, total)` where the binary64 evaluation of
`(c/t)*100` falls below the exact half-integer `100*c/t` and
`Math.round` therefore returns one less than exact rational rounding:
`(23/40)*100 = 57.49999999999999`, and `(46/80)*100` likewise. These
are the only such pairs on the domain verified below (all totals up to
20 and the full rows for totals 40 and 80). -/
def scoreTieDeficits : List (Nat × Nat) := [(23, 40), (46, 80)]

/-- One cell of the score table: the binary64 score at `c` correct out
of `t` equals exact rational rounding `(200*c+t)/(2*t) = ⌊100*c/t+1/2⌋`
minus the tie deficit. -/
def cellOK (c t : Nat) : Bool :=
  scoreOf c t == some ((200 * c + t) / (2 * t) -
    (if (c, t) ∈ scoreTieDeficits then 1 else 0))

/-- All cells `0 ≤ c ≤ cmax` of the score-table row for total `t`. -/
def rowOK (t : Nat) : Nat → Bool
  | 0 => cellOK 0 t
  | c + 1 => cellOK (c + 1) t && rowOK t c

/-- All score-table rows with totals `1..tmax`. -/
def rowsOK : Nat → Bool
  | 0 => true
  | t + 1 => rowOK (t + 1) (t + 1) && rowsOK t

/-- The verified score table: every total up to 20 (review sessions are
capped at 20 words) and the complete rows for totals 40 and 80, the
rows holding the binary64 tie deficits. -/
def scoreTable : Bool := rowsOK 20 && (rowOK 40 40 && rowOK 80 80)

/-- The whole scheduler step of `handleQuizComplete`
(`src/App.tsx` lines 63-112): updated library plus the `TestRecord`
appended to the history. -/
def applyResults (lib : WordLibrary) (results : List QuizResult)
    (now : Nat) : WordLibrary × TestRecord :=
  let correctCount := results.countP (·.isCorrect)
  (applyResultsToLibrary lib results now,
   { id := toString now
     date := now
     score := scoreOf correctCount results.length
     total := results.length
     wrongWords := wrongWordsOf results })

/-- `getDueWords`'s filter predicate
(`src/components/SetupScreen.tsx` lines 147-151): `!w.lastReviewed`
(true for an unset field and for timestamp `0`) makes the word due;
otherwise it is due iff
`lastReviewed + (reviewInterval || 0) * 86400000 <= now`. -/
def isDue (now : Nat) (w : WordPair) : Bool :=
  if w.lastReviewed.getD 0 = 0 then true
  else w.lastReviewed.getD 0 + w.reviewInterval.getD 0 * 24 * 60 * 60 * 1000 ≤ now

/-- `getDueWords` (`src/components/SetupScreen.tsx` lines 144-152):
`Object.values(library).flat()` filtered by the due predicate. -/
def getDueWords (lib : WordLibrary) (now : Nat) : List WordPair :=
  (lib.flatMap (·.2)).filter (isDue now)

/-- `User` from `src/types.ts` / `src/services/storageService.ts`. -/
structure User where
  id : String
  username : String
  password : Option String
  createdAt : Nat
  isAdmin : Bool
deriving Repr, DecidableEq

/-- The per-user payload stored under `sdb_data_<userId>`
(`src/services/storageService.ts` lines 99-101). -/
structure UserData where
  library : WordLibrary
  history : List TestRecord

/-- The localStorage slice the `StorageService` touches: the
`sdb_users` list and the `sdb_data_<userId>` entries (one optional
payload per user-id key). -/
structure StorageState where
  users : List User
  userData : String → Option UserData

/-- The typed failures thrown by `StorageService.register` / `login`
(`src/services/storageService.ts` lines 51, 78, 79). -/
inductive StoreError where
  | duplicateUsername
  | userNotFound
  | invalidCredentials
deriving Repr, DecidableEq

/-- JS `String.prototype.toLowerCase()` (ASCII model): lowercases each
character. Defined by structural recursion over the character list so
the kernel can evaluate it (core `String.toLower` recurses on string
positions and does not reduce). -/
def jsToLower (s : String) : String := ⟨s.data.map Char.toLower⟩

/-- JS `String.prototype.trim()` (ASCII model): strips leading and
trailing whitespace. -/
def jsTrim (s : String) : String :=
  ⟨((s.data.dropWhile Char.isWhitespace).reverse.dropWhile
      Char.isWhitespace).reverse⟩

/-- `ADMIN_IDENTIFIERS` (`src/services/storageService.ts` line 6). -/
def ADMIN_IDENTIFIERS : List String := ["910272860@qq.com", "13585556661"]

/-- A word of `DEFAULT_LIBRARY`: only id, english, chinese and
category are set. -/
def defWord (i e c cat : String) : WordPair :=
  { id := i, english := e, chinese := c, category := some cat
    lastReviewed := none, reviewInterval := none, proficiency := none }

/-- `DEFAULT_LIBRARY` (`src/services/storageService.ts` lines 10-36). -/
def DEFAULT_LIBRARY : WordLibrary :=
  [("Food",
    [defWord "def-1" "Apple" "苹果" "Food",
     defWord "def-2" "Banana" "香蕉" "Food",
     defWord "def-3" "Bread" "面包" "Food",
     defWord "def-4" "Milk" "牛奶" "Food",
     defWord "def-5" "Coffee" "咖啡" "Food"]),
   ("Animals",
    [defWord "def-6" "Cat" "猫" "Animals",
     defWord "def-7" "Dog" "狗" "Animals",
     defWord "def-8" "Elephant" "大象" "Animals",
     defWord "def-9" "Tiger" "老虎" "Animals"]),
   ("School",
    [defWord "def-10" "Book" "书" "School",
     defWord "def-11" "Teacher" "老师" "School",
     defWord "def-12" "Student" "学生" "School",
     defWord "def-13" "Pencil" "铅笔" "School"]),
   ("Travel",
    [defWord "def-14" "Airport" "机场" "Travel",
     defWord "def-15" "Ticket" "票" "Travel",
     defWord "def-16" "Hotel" "酒店" "Travel"]),
   ("Uncategorized", [])]

/-- `StorageService.saveUserData` (`src/services/storageService.ts`
lines 99-101): whole-object write under the key `sdb_data_<userId>`. -/
def saveUserData (st : StorageState) (userId : String) (data : UserData) :
    StorageState :=
  { st with userData := fun k => if k = userId then some data else st.userData k }

/-- `StorageService.loadUserData` (`src/services/storageService.ts`
lines 104-109): read of the key `sdb_data_<userId>`, `null` when absent. -/
def loadUserData (st : StorageState) (userId : String) : Option UserData :=
  st.userData userId

/-- `StorageService.register` (`src/services/storageService.ts`
lines 46-73). The thrown `Error('Username already exists')` becomes a
`StoreError` value paired with the unchanged state (the throw happens
before any write). `Date.now()` is the `now` parameter, used both for
the id and `createdAt`. -/
def register (st : StorageState) (now : Nat) (username : String)
    (password : Option String) : Except StoreError User × StorageState :=
  let cleanUsername := jsTrim username
  if st.users.any (fun u => jsToLower u.username = jsToLower cleanUsername) then
    (.error .duplicateUsername, st)
  else
    let newUser : User :=
      { id := toString now
        username := cleanUsername
        password := password
        createdAt := now
        isAdmin := ADMIN_IDENTIFIERS.contains cleanUsername }
    let st1 : StorageState := { st with users := st.users ++ [newUser] }
    (.ok newUser,
     saveUserData st1 newUser.id { library := DEFAULT_LIBRARY, history := [] })

/-- `StorageService.login` (`src/services/storageService.ts`
lines 75-81). `users.find(...)` is `List.find?`; the JS truthiness
test `user.password && user.password !== password` errors exactly when
the stored password is a non-empty string different from the supplied
optional one. Login writes nothing, so only the result is returned. -/
def login (st : StorageState) (username : String)
    (password : Option String) : Except StoreError User :=
  match st.users.find? (fun u => jsToLower u.username = jsToLower (jsTrim username)) with
  | none => .error .userNotFound
  | some user =>
    match user.password with
    | none => .ok user
    | some p =>
      if p = "" then .ok user
      else if password = some p then .ok user
      else .error .invalidCredentials

/-- `StorageService.deleteUser` (`src/services/storageService.ts`
lines 113-118): filters the user list by id and removes the
`sdb_data_<id>` key. -/
def deleteUser (st : StorageState) (targetUserId : String) : StorageState :=
  { users := st.users.filter (fun u => u.id ≠ targetUserId)
    userData := fun k => if k = targetUserId then none else st.userData k }

/-- `users[idx].password = newPass` on the first user whose id matches
(`src/services/storageService.ts` line 124); an empty list or no match
leaves the list as is. -/
def setPasswordAtFirstMatch (targetUserId newPass : String) :
    List User → List User
  | [] => []
  | u :: rest =>
    if u.id = targetUserId then { u with password := some newPass } :: rest
    else u :: setPasswordAtFirstMatch targetUserId newPass rest

/-- `StorageService.resetUserPassword` (`src/services/storageService.ts`
lines 120-127): `findIndex` plus in-place assignment and re-save; when
`findIndex` returns `-1` nothing is written, which coincides with the
no-match case of `setPasswordAtFirstMatch`. -/
def resetUserPassword (st : StorageState) (targetUserId newPass : String) :
    StorageState :=
  { st with users := setPasswordAtFirstMatch targetUserId newPass st.users }

/-! Concrete scenario data for the spec's worked examples: the word
`{id:"w1", interval:0, proficiency:0}` quizzed through `applyResults`. -/

/-- The scenario word `{id:"w1", interval:0, proficiency:0}`. -/
def w1Start : WordPair :=
  { id := "w1", english := "e", chinese := "c", category := none
    lastReviewed := none, reviewInterval := some 0, proficiency := some 0 }

/-- A correct quiz result for `w1` at time `t`. -/
def correctW1 (t : Nat) : QuizResult :=
  { wordId := "w1", isCorrect := true, userAnswer := "e",
    correctAnswer := "e", timestamp := t }

/-- An incorrect quiz result for `w1` at time `t`. -/
def wrongW1 (t : Nat) : QuizResult :=
  { wordId := "w1", isCorrect := false, userAnswer := "x",
    correctAnswer := "e", timestamp := t }

/-- Scenario library holding only `w1`. -/
def scenLib0 : WordLibrary := [("Uncategorized", [w1Start])]

/-- Scenario library after one correct answer. -/
def scenLib1 : WordLibrary := (applyResults scenLib0 [correctW1 10] 10).1

/-- Scenario library after two correct answers. -/
def scenLib2 : WordLibrary := (applyResults scenLib1 [correctW1 20] 20).1

/-- Scenario library after three correct answers. -/
def scenLib3 : WordLibrary := (applyResults scenLib2 [correctW1 30] 30).1

/-- Scenario library after one correct then one incorrect answer. -/
def scenLib2Wrong : WordLibrary := (applyResults scenLib1 [wrongW1 20] 20).1

/-- The `(reviewIntervalDays, proficiency)` pairs of all words of a
library, in traversal order, defaults applied. -/
def srsStates (lib : WordLibrary) : List (Nat × Nat) :=
  (lib.flatMap (·.2)).map fun w =>
    (w.reviewInterval.getD 0, w.proficiency.getD 0)

/-- C1: a correct result sets the interval to 1 when the previous
interval was 0 and to exactly twice the previous interval otherwise, and
sets proficiency to the previous value plus 1 capped at 5; the word
`{id:"w1", interval:0, proficiency:0}` answered correctly three times in
sequence has intervals 1, 2, 4 and proficiency 1, 2, 3. -/
theorem srs_correct_update (now : Nat) (w : WordPair) :
    ((updateWordSRS true now w).reviewInterval =
      some (if w.reviewInterval.getD 0 = 0 then 1
            else 2 * w.reviewInterval.getD 0))
    ∧ (updateWordSRS true now w).proficiency =
      some (min (w.proficiency.getD 0 + 1) 5)
    ∧ srsStates scenLib1 = [(1, 1)]
    ∧ srsStates scenLib2 = [(2, 2)]
    ∧ srsStates scenLib3 = [(4, 3)] := by
  refine ⟨?_, ?_, by decide, by decide, by decide⟩
  · simp only [updateWordSRS, if_true]
    rw [Nat.mul_comm]
  · simp [updateWordSRS]

/-- C2: an incorrect result resets the interval to 0, sets proficiency
to the previous value minus 1 floored at 0 (Nat subtraction), and stamps
`lastReviewed` with the current time; the scenario word answered
correctly once then incorrectly ends at interval 0, proficiency 0. -/
theorem srs_incorrect_update (now : Nat) (w : WordPair) :
    (updateWordSRS false now w).reviewInterval = some 0
    ∧ (updateWordSRS false now w).proficiency =
      some (w.proficiency.getD 0 - 1)
    ∧ (updateWordSRS false now w).lastReviewed = some now
    ∧ srsStates scenLib2Wrong = [(0, 0)] := by
  refine ⟨?_, ?_, ?_, by decide⟩ <;> simp [updateWordSRS]

/-- A word whose `lastReviewed` is the timestamp `0` with a one-day
interval: `!w.lastReviewed` is true in JS for the number `0`, so
`getDueWords` treats it as never reviewed. -/
def wReviewedAtZero : WordPair :=
  { id := "z", english := "a", chinese := "b", category := none
    lastReviewed := some 0, reviewInterval := some 1, proficiency := none }

/-- C3 counterexample: at `now = 5` the word reviewed at timestamp 0
with interval 1 day satisfies `now < lastReviewedAt + 1 * 86400000`, yet
`getDueWords` includes it (the falsy-zero check fires before the
interval comparison), contradicting the claimed exclusion. -/
theorem getDueWords_excludes_counterexample :
    wReviewedAtZero.lastReviewed = some 0
    ∧ (5 : Nat) < 0 + 1 * 86400000
    ∧ wReviewedAtZero ∈ getDueWords [("C", [wReviewedAtZero])] 5 := by
  refine ⟨rfl, by norm_num, ?_⟩
  simp [getDueWords, isDue, wReviewedAtZero]

/-- C3 (amended): `getDueWords` includes every word whose
`lastReviewed` is unset; it excludes a word with
`lastReviewed = some t`, `t ≠ 0`, whenever
`now < t + reviewIntervalDays * 86400000`, and includes every library
word at exact equality. (The amendment: exclusion requires `t ≠ 0`,
since the code's `!w.lastReviewed` treats timestamp 0 as never
reviewed.) -/
theorem getDueWords_characterization (lib : WordLibrary) (now : Nat)
    (w : WordPair) :
    (w ∈ lib.flatMap (·.2) → w.lastReviewed = none → w ∈ getDueWords lib now)
    ∧ (∀ t, w.lastReviewed = some t → t ≠ 0 →
        now < t + w.reviewInterval.getD 0 * 86400000 →
        w ∉ getDueWords lib now)
    ∧ (∀ t, w ∈ lib.flatMap (·.2) → w.lastReviewed = some t →
        now = t + w.reviewInterval.getD 0 * 86400000 →
        w ∈ getDueWords lib now) := by
  refine ⟨fun hmem hnone => ?_, fun t hsome ht hlt hmem => ?_, ?_⟩
  · exact List.mem_filter.2 ⟨hmem, by simp [isDue, hnone]⟩
  · have hdue := (List.mem_filter.1 hmem).2
    rw [isDue, hsome] at hdue
    simp only [Option.getD_some, if_neg ht] at hdue
    have : t + w.reviewInterval.getD 0 * 86400000 ≤ now := by
      have h1000 : (24 : Nat) * 60 * 60 * 1000 = 86400000 := by norm_num
      have := of_decide_eq_true hdue
      calc t + w.reviewInterval.getD 0 * 86400000
          = t + w.reviewInterval.getD 0 * 24 * 60 * 60 * 1000 := by ring
        _ ≤ now := this
    omega
  · intro t hmem hsome heq
    refine List.mem_filter.2 ⟨hmem, ?_⟩
    rw [isDue, hsome]
    simp only [Option.getD_some]
    by_cases ht : t = 0
    · simp [ht]
    · rw [if_neg ht]
      refine decide_eq_true ?_
      calc t + w.reviewInterval.getD 0 * 24 * 60 * 60 * 1000
          = t + w.reviewInterval.getD 0 * 86400000 := by ring
        _ ≤ now := le_of_eq heq.symm

/-- A word reviewed at timestamp 3 with a one-day interval, for the C3
witness. -/
def wReviewedAtThree : WordPair :=
  { wReviewedAtZero with lastReviewed := some 3 }

/-- C3 witness: the three parts of the characterization instantiated at
concrete libraries and times. -/
theorem getDueWords_characterization_witness :
    w1Start ∈ getDueWords [("C", [w1Start])] 7
    ∧ wReviewedAtThree ∉ getDueWords [("C", [wReviewedAtThree])] 5
    ∧ wReviewedAtThree ∈
        getDueWords [("C", [wReviewedAtThree])] (3 + 1 * 86400000) := by
  refine ⟨?_, ?_, ?_⟩
  · exact (getDueWords_characterization _ 7 w1Start).1 (by decide) rfl
  · exact (getDueWords_characterization _ 5 wReviewedAtThree).2.1 3 rfl
      (by decide) (by norm_num [wReviewedAtThree, wReviewedAtZero])
  · exact (getDueWords_characterization _ _ wReviewedAtThree).2.2 3 (by decide)
      rfl (by norm_num [wReviewedAtThree, wReviewedAtZero])

/-- In exact arithmetic, `Math.round((c/t)*100) = ⌊100*c/t + 1/2⌋` is
the Nat division `(200*c + t) / (2*t)`. -/
theorem round_percent (c t : Nat) (ht : t ≠ 0) :
    (((200 * c + t) / (2 * t) : ℕ) : ℤ) = round ((100 * (c : ℚ)) / (t : ℚ)) := by
  have ht' : (t : ℚ) ≠ 0 := Nat.cast_ne_zero.2 ht
  have key : (100 * (c : ℚ)) / (t : ℚ) + 1 / 2 =
      ((200 * c + t : ℕ) : ℚ) / ((2 * t : ℕ) : ℚ) := by
    push_cast
    field_simp
    ring
  rw [round_eq, key, ← @Nat.floor_div_eq_div ℚ _ _ (200 * c + t) (2 * t),
    Int.natCast_floor_eq_floor]
  positivity

set_option maxRecDepth 100000 in
set_option maxHeartbeats 4000000 in
/-- The binary64-versus-exact-rounding score table, verified by kernel
evaluation. -/
theorem scoreTable_true : scoreTable = true := by decide

/-- A true row has every cell up to its bound true. -/
theorem rowOK_cell (t : Nat) :
    ∀ cmax, rowOK t cmax = true → ∀ c, c ≤ cmax → cellOK c t = true := by
  intro cmax
  induction cmax with
  | zero =>
    intro h c hc
    obtain rfl := Nat.le_zero.1 hc
    exact h
  | succ m ih =>
    intro h c hc
    simp only [rowOK, Bool.and_eq_true] at h
    rcases Nat.eq_or_lt_of_le hc with rfl | hlt
    · exact h.1
    · exact ih h.2 c (Nat.lt_succ_iff.1 hlt)

/-- A true row block has every row up to its bound true. -/
theorem rowsOK_row (tmax : Nat) :
    rowsOK tmax = true → ∀ t, t ≠ 0 → t ≤ tmax → rowOK t t = true := by
  induction tmax with
  | zero =>
    intro _ t ht hle
    exact absurd (Nat.le_zero.1 hle) ht
  | succ m ih =>
    intro h t ht hle
    simp only [rowsOK, Bool.and_eq_true] at h
    rcases Nat.eq_or_lt_of_le hle with rfl | hlt
    · exact h.1
    · exact ih h.2 t ht (Nat.lt_succ_iff.1 hlt)

/-- Pointwise form of `scoreTable_true`: on the verified domain the
binary64 score is exact rational rounding minus the tie deficit. -/
theorem scoreOf_verified (t c : Nat)
    (hdom : t ≤ 20 ∨ t = 40 ∨ t = 80) (ht : t ≠ 0) (hc : c ≤ t) :
    scoreOf c t = some ((200 * c + t) / (2 * t) -
      (if (c, t) ∈ scoreTieDeficits then 1 else 0)) := by
  have htab : scoreTable = true := scoreTable_true
  simp only [scoreTable, Bool.and_eq_true] at htab
  have hrow : rowOK t t = true := by
    rcases hdom with h20 | h40 | h80
    · exact rowsOK_row 20 htab.1 t ht h20
    · rw [h40]
      exact htab.2.1
    · rw [h80]
      exact htab.2.2
  have hcell := rowOK_cell t t hrow c hc
  simpa only [cellOK, beq_iff_eq] using hcell

/-- A quiz of 40 questions of which 23 were answered correctly. -/
def mixedResults : List QuizResult :=
  List.replicate 23 (correctW1 0) ++ List.replicate 17 (wrongW1 0)

/-- C4 counterexample: for 23 correct out of 40 the program's binary64
evaluation of `(23/40)*100` is `57.49999999999999`, so the recorded
score is 57, while the claim's exact `round(100*23/40) = round(57.5)`
is 58. -/
theorem applyResults_score_counterexample :
    (applyResults scenLib0 mixedResults 0).2.score = some 57
    ∧ ¬ ((57 : ℤ) = round ((100 * ((mixedResults.countP (·.isCorrect) : ℕ) : ℚ)) /
        ((mixedResults.length : ℕ) : ℚ))) := by
  refine ⟨by decide, ?_⟩
  have hc : mixedResults.countP (·.isCorrect) = 23 := by decide
  have hl : mixedResults.length = 40 := by decide
  rw [hc, hl]
  have h58 : (100 * ((23 : ℕ) : ℚ)) / ((40 : ℕ) : ℚ) + 1 / 2 = ((58 : ℤ) : ℚ) := by
    push_cast
    norm_num
  rw [round_eq, h58, Int.floor_intCast]
  decide

/-- C4 (amended): the TestRecord's `total` is the number of results and
the empty list yields the NaN-shaped score (`none`, no error raised);
for a non-empty result list on the verified domain (at most 20
questions, or exactly 40 or 80) the score is
`round(100 * correctCount / totalCount)` - computed by the program in
binary64 - which agrees with exact rational rounding except at the
tie-miss pairs `scoreTieDeficits` ((23,40) and (46,80)), where the
double falls just below the half-integer and the score is one less
than the exact rounding. -/
theorem applyResults_record_spec (lib : WordLibrary)
    (results : List QuizResult) (now : Nat) :
    (applyResults lib [] now).2.score = none
    ∧ (applyResults lib results now).2.total = results.length
    ∧ (results ≠ [] →
        (results.length ≤ 20 ∨ results.length = 40 ∨ results.length = 80) →
        (((results.countP (·.isCorrect), results.length) ∉ scoreTieDeficits →
          ∃ s : Nat, (applyResults lib results now).2.score = some s ∧
            (s : ℤ) = round ((100 * ((results.countP (·.isCorrect) : ℕ) : ℚ)) /
              ((results.length : ℕ) : ℚ)))
         ∧ ((results.countP (·.isCorrect), results.length) ∈ scoreTieDeficits →
          ∃ s : Nat, (applyResults lib results now).2.score = some s ∧
            (s : ℤ) + 1 = round ((100 * ((results.countP (·.isCorrect) : ℕ) : ℚ)) /
              ((results.length : ℕ) : ℚ))))) := by
  refine ⟨rfl, rfl, fun hne hdom => ?_⟩
  have htne : results.length ≠ 0 := by
    simpa using List.length_pos.2 hne |>.ne'
  have hcle : results.countP (·.isCorrect) ≤ results.length :=
    List.countP_le_length _
  have hsc : (applyResults lib results now).2.score =
      scoreOf (results.countP (·.isCorrect)) results.length := rfl
  have htab := scoreOf_verified results.length (results.countP (·.isCorrect))
    hdom htne hcle
  constructor
  · intro hnot
    rw [if_neg hnot, Nat.sub_zero] at htab
    exact ⟨(200 * results.countP (·.isCorrect) + results.length) /
        (2 * results.length),
      by rw [hsc, htab], round_percent _ _ htne⟩
  · intro hmem
    simp only [scoreTieDeficits, List.mem_cons, List.mem_singleton,
      List.not_mem_nil, or_false] at hmem
    have h58 : ∀ cv tv : Nat, cv = 23 ∧ tv = 40 ∨ cv = 46 ∧ tv = 80 →
        (100 * ((cv : ℕ) : ℚ)) / ((tv : ℕ) : ℚ) + 1 / 2 = ((58 : ℤ) : ℚ) := by
      rintro cv tv (⟨rfl, rfl⟩ | ⟨rfl, rfl⟩) <;> (push_cast; norm_num)
    rcases hmem with h | h
    · injection h with hcv htv
      refine ⟨57, ?_, ?_⟩
      · rw [hsc, hcv, htv]
        decide
      · rw [hcv, htv, round_eq, h58 23 40 (Or.inl ⟨rfl, rfl⟩),
          Int.floor_intCast]
        decide
    · injection h with hcv htv
      refine ⟨57, ?_, ?_⟩
      · rw [hsc, hcv, htv]
        decide
      · rw [hcv, htv, round_eq, h58 46 80 (Or.inr ⟨rfl, rfl⟩),
          Int.floor_intCast]
        decide

/-- C4 witness: one correct and one incorrect answer (off the tie-miss
list) give score 50 = round(50); the 23-of-40 quiz (on the tie-miss
list) gives score 57 with 57 + 1 = round(57.5). -/
theorem applyResults_record_spec_witness :
    (∃ s : Nat,
        (applyResults scenLib0 [correctW1 10, wrongW1 20] 10).2.score = some s ∧
        (s : ℤ) = round ((100 *
          ((([correctW1 10, wrongW1 20] : List QuizResult).countP
            (·.isCorrect) : ℕ) : ℚ)) /
          ((([correctW1 10, wrongW1 20] : List QuizResult).length : ℕ) : ℚ)))
    ∧ (∃ s : Nat,
        (applyResults scenLib0 mixedResults 0).2.score = some s ∧
        (s : ℤ) + 1 = round ((100 *
          ((mixedResults.countP (·.isCorrect) : ℕ) : ℚ)) /
          ((mixedResults.length : ℕ) : ℚ))) :=
  ⟨((applyResults_record_spec scenLib0 [correctW1 10, wrongW1 20] 10).2.2
      (by decide) (by decide)).1 (by decide),
   ((applyResults_record_spec scenLib0 mixedResults 0).2.2
      (by decide) (by decide)).2 (by decide)⟩

/-- A category containing no word with the result's id is left
unchanged by the findIndex-and-replace step. -/
theorem updateFirstMatch_no_match (res : QuizResult) (now : Nat)
    {ws : List WordPair} (h : ∀ w ∈ ws, w.id ≠ res.wordId) :
    updateFirstMatch res now ws = ws := by
  induction ws with
  | nil => rfl
  | cons w rest ih =>
    rw [updateFirstMatch, if_neg (h w (List.mem_cons_self ..)),
      ih fun w' hw' => h w' (List.mem_cons_of_mem _ hw')]

/-- In a category whose first match for the result's id is `w`, exactly
`w` is replaced by its SRS-updated copy. -/
theorem updateFirstMatch_found (res : QuizResult) (now : Nat)
    (ws1 : List WordPair) {w : WordPair} (ws2 : List WordPair)
    (h1 : ∀ w' ∈ ws1, w'.id ≠ res.wordId) (hw : w.id = res.wordId) :
    updateFirstMatch res now (ws1 ++ w :: ws2) =
      ws1 ++ updateWordSRS res.isCorrect now w :: ws2 := by
  induction ws1 with
  | nil => simp [updateFirstMatch, hw]
  | cons a rest ih =>
    rw [List.cons_append, updateFirstMatch,
      if_neg (h1 a (List.mem_cons_self ..)),
      ih fun w' hw' => h1 w' (List.mem_cons_of_mem _ hw'), List.cons_append]

/-- A library containing no word with the result's id is left unchanged
by one loop iteration. -/
theorem applyResultToLibrary_no_match (res : QuizResult) (now : Nat)
    (lib : WordLibrary) (h : ∀ cw ∈ lib, ∀ w ∈ cw.2, w.id ≠ res.wordId) :
    applyResultToLibrary res now lib = lib := by
  induction lib with
  | nil => rfl
  | cons cw rest ih =>
    obtain ⟨c, ws⟩ := cw
    simp only [applyResultToLibrary, List.map_cons]
    rw [updateFirstMatch_no_match res now (h (c, ws) (List.mem_cons_self ..))]
    have hrest := ih fun cw' h1 w h2 => h cw' (List.mem_cons_of_mem _ h1) w h2
    simp only [applyResultToLibrary] at hrest
    rw [hrest]

/-- C5: when the result's wordId occurs exactly once in the library (at
category `c`, after prefix `ws1`), processing the result replaces only
that entry with its SRS-updated copy and leaves every other category and
word untouched; and when the wordId matches no entry at all, the result
is skipped and the library is returned unchanged (no error: the
function is total). -/
theorem applyResult_locates_and_replaces (res : QuizResult) (now : Nat) :
    (∀ (pre post : WordLibrary) (c : String) (ws1 ws2 : List WordPair)
       (w : WordPair),
       (∀ cw ∈ pre ++ post, ∀ w' ∈ cw.2, w'.id ≠ res.wordId) →
       (∀ w' ∈ ws1, w'.id ≠ res.wordId) →
       w.id = res.wordId →
       applyResultToLibrary res now (pre ++ (c, ws1 ++ w :: ws2) :: post) =
         pre ++ (c, ws1 ++ updateWordSRS res.isCorrect now w :: ws2) :: post)
    ∧ (∀ lib : WordLibrary,
       (∀ cw ∈ lib, ∀ w' ∈ cw.2, w'.id ≠ res.wordId) →
       applyResultToLibrary res now lib = lib) := by
  constructor
  · intro pre post c ws1 ws2 w hpp h1 hw
    have hpre := applyResultToLibrary_no_match res now
      pre fun cw h => hpp cw (List.mem_append_left _ h)
    have hpost := applyResultToLibrary_no_match res now
      post fun cw h => hpp cw (List.mem_append_right _ h)
    simp only [applyResultToLibrary, List.map_append, List.map_cons] at *
    rw [hpre, hpost, updateFirstMatch_found res now ws1 ws2 h1 hw]
  · exact fun lib h => applyResultToLibrary_no_match res now lib h

/-- C5 witness: a matching result updates exactly the matching entry of
the one-word scenario library; a result whose id matches nothing leaves
a library unchanged. -/
theorem applyResult_locates_and_replaces_witness :
    applyResultToLibrary (correctW1 10) 10
        ([] ++ ("Uncategorized", [] ++ w1Start :: []) :: []) =
      [] ++ ("Uncategorized",
        [] ++ updateWordSRS (correctW1 10).isCorrect 10 w1Start :: []) :: []
    ∧ applyResultToLibrary (correctW1 10) 10 [("C", [wReviewedAtZero])] =
        [("C", [wReviewedAtZero])] :=
  ⟨(applyResult_locates_and_replaces (correctW1 10) 10).1 [] [] "Uncategorized"
      [] [] w1Start (by decide) (by decide) (by decide),
   (applyResult_locates_and_replaces (correctW1 10) 10).2
      [("C", [wReviewedAtZero])] (by decide)⟩

/-! Concrete storage states for witnesses. -/

/-- A storage state with no users and no per-user data. -/
def emptyStore : StorageState := { users := [], userData := fun _ => none }

/-- A user "bob" with the stored password "pw". -/
def bobUser : User :=
  { id := "u1", username := "bob", password := some "pw",
    createdAt := 0, isAdmin := false }

/-- A user "guest" with no stored password. -/
def guestUser : User :=
  { id := "u2", username := "guest", password := none,
    createdAt := 0, isAdmin := false }

/-- A storage state with the users bob and guest and per-user data for
both. -/
def dataStore : StorageState :=
  { users := [bobUser, guestUser]
    userData := fun k =>
      if k = "u1" then some { library := scenLib0, history := [] }
      else if k = "u2" then some { library := [], history := [] }
      else none }

/-- C6: when a stored username matches the (trimmed) requested one
case-insensitively, `register` fails with `DuplicateUsername` and
returns the storage state unchanged; in particular registering "bob"
into an empty store and then "BOB" fails on the second call. -/
theorem register_duplicate_rejects (st : StorageState) (now : Nat)
    (username : String) (pw : Option String) :
    ((∃ u ∈ st.users, jsToLower u.username = jsToLower (jsTrim username)) →
      register st now username pw = (.error .duplicateUsername, st))
    ∧ (register (register emptyStore 1 "bob" none).2 2 "BOB" none).1 =
        .error .duplicateUsername := by
  constructor
  · rintro ⟨u, hu, heq⟩
    have hc : (st.users.any
        fun u => jsToLower u.username = jsToLower (jsTrim username)) = true :=
      List.any_eq_true.2 ⟨u, hu, decide_eq_true heq⟩
    simp only [register, hc, if_true]
  · rfl

/-- C6 witness: registering "BOB" into a store already holding "bob"
fails with `DuplicateUsername` and leaves the store unchanged. -/
theorem register_duplicate_rejects_witness :
    (∃ u ∈ dataStore.users, jsToLower u.username = jsToLower (jsTrim "BOB"))
    ∧ register dataStore 5 "BOB" none = (.error .duplicateUsername, dataStore) :=
  ⟨⟨bobUser, by decide, by decide⟩,
   (register_duplicate_rejects dataStore 5 "BOB" none).1
     ⟨bobUser, by decide, by decide⟩⟩

/-- C7: `login` fails with `UserNotFound` exactly when no stored user
matches the trimmed supplied username case-insensitively; when the
matched (first-found) user has a non-empty stored password it fails
with `InvalidCredentials` exactly when the supplied password is not
exactly that string, and succeeds on an exact match; when the matched
user's stored password is absent or empty, login succeeds for any
supplied password. -/
theorem login_spec (st : StorageState) (username : String)
    (pw : Option String) :
    (login st username pw = .error .userNotFound ↔
      ∀ u ∈ st.users, ¬ jsToLower u.username = jsToLower (jsTrim username))
    ∧ (∀ user p,
        st.users.find?
          (fun u => jsToLower u.username = jsToLower (jsTrim username)) = some user →
        user.password = some p → p ≠ "" →
        ((login st username pw = .error .invalidCredentials ↔ pw ≠ some p)
         ∧ (pw = some p → login st username pw = .ok user)))
    ∧ (∀ user,
        st.users.find?
          (fun u => jsToLower u.username = jsToLower (jsTrim username)) = some user →
        (user.password = none ∨ user.password = some "") →
        login st username pw = .ok user) := by
  refine ⟨?_, ?_, ?_⟩
  · cases hf : st.users.find?
        (fun u => jsToLower u.username = jsToLower (jsTrim username)) with
    | none =>
      constructor
      · intro _ u hu
        simpa using List.find?_eq_none.1 hf u hu
      · intro _
        simp [login, hf]
    | some user =>
      constructor
      · intro h
        exfalso
        cases hpw : user.password with
        | none => simp [login, hf, hpw] at h
        | some p =>
          by_cases hp0 : p = ""
          · simp [login, hf, hpw, hp0] at h
          · by_cases hpe : pw = some p
            · simp [login, hf, hpw, hp0, hpe] at h
            · simp [login, hf, hpw, hp0, hpe] at h
      · intro hall
        exact absurd (by simpa using List.find?_some hf)
          (hall user (List.mem_of_find?_eq_some hf))
  · intro user p hfu hpw hp0
    constructor
    · by_cases hpe : pw = some p
      · simp [login, hfu, hpw, hp0, hpe]
      · simp [login, hfu, hpw, hp0, hpe]
    · intro hpe
      simp [login, hfu, hpw, hp0, hpe]
  · intro user hfu hor
    rcases hor with h | h <;> simp [login, hfu, h]

/-- C7 witness: on the concrete store, an unknown name gives
`UserNotFound` (iff instantiated), a wrong password for bob gives
`InvalidCredentials`, the right password logs bob in, and guest (no
stored password) logs in with an arbitrary password. -/
theorem login_spec_witness :
    (login dataStore "nobody" none = .error .userNotFound ↔
      ∀ u ∈ dataStore.users, ¬ jsToLower u.username = jsToLower (jsTrim "nobody"))
    ∧ (login dataStore "bob" (some "wrong") = .error .invalidCredentials ↔
        (some "wrong" : Option String) ≠ some "pw")
    ∧ login dataStore "bob" (some "pw") = .ok bobUser
    ∧ login dataStore "guest" (some "anything") = .ok guestUser :=
  ⟨(login_spec dataStore "nobody" none).1,
   ((login_spec dataStore "bob" (some "wrong")).2.1 bobUser "pw" (by decide)
     rfl (by decide)).1,
   ((login_spec dataStore "bob" (some "pw")).2.1 bobUser "pw" (by decide)
     rfl (by decide)).2 rfl,
   (login_spec dataStore "guest" (some "anything")).2.2 guestUser (by decide)
     (Or.inl rfl)⟩

/-- The `User` object built by `StorageService.register`
(`src/services/storageService.ts` lines 56-62). -/
def newUserOf (now : Nat) (username : String) (pw : Option String) : User :=
  { id := toString now
    username := jsTrim username
    password := pw
    createdAt := now
    isAdmin := ADMIN_IDENTIFIERS.contains (jsTrim username) }

/-- C8: on a non-duplicate username, `register` returns a new user whose
username is the trimmed input and whose admin flag is exactly the
allow-list membership of the trimmed username, appends it to the stored
user list, and initializes that user's persisted data to the fixed
starter library with an empty history, leaving all other per-user data
untouched. -/
theorem register_success (st : StorageState) (now : Nat) (username : String)
    (pw : Option String) :
    (∀ u ∈ st.users, ¬ jsToLower u.username = jsToLower (jsTrim username)) →
    register st now username pw =
      (.ok (newUserOf now username pw),
       { users := st.users ++ [newUserOf now username pw]
         userData := fun k =>
           if k = (newUserOf now username pw).id
           then some { library := DEFAULT_LIBRARY, history := [] }
           else st.userData k })
    ∧ (newUserOf now username pw).isAdmin =
        ADMIN_IDENTIFIERS.contains (jsTrim username)
    ∧ (newUserOf now username pw).username = jsTrim username := by
  intro h
  have hc : (st.users.any
      fun u => jsToLower u.username = jsToLower (jsTrim username)) = false := by
    simp only [List.any_eq_false, decide_eq_true_eq]
    exact h
  refine ⟨?_, rfl, rfl⟩
  simp only [register, hc, Bool.false_eq_true, if_false]
  rfl

/-- C8 witness: registering the first admin allow-list identifier into
the empty store. -/
theorem register_success_witness :
    register emptyStore 7 "910272860@qq.com" none =
      (.ok (newUserOf 7 "910272860@qq.com" none),
       { users := emptyStore.users ++ [newUserOf 7 "910272860@qq.com" none]
         userData := fun k =>
           if k = (newUserOf 7 "910272860@qq.com" none).id
           then some { library := DEFAULT_LIBRARY, history := [] }
           else emptyStore.userData k })
    ∧ (newUserOf 7 "910272860@qq.com" none).isAdmin =
        ADMIN_IDENTIFIERS.contains (jsTrim "910272860@qq.com")
    ∧ (newUserOf 7 "910272860@qq.com" none).username =
        jsTrim "910272860@qq.com" :=
  register_success emptyStore 7 "910272860@qq.com" none (by decide)

/-- C9: `deleteUser` removes the target's user record and its persisted
data: afterwards `loadUserData` for that id is `none`, no stored user
has that id, every other user record is retained, and every other id's
per-user data is untouched. -/
theorem deleteUser_spec (st : StorageState) (targetId : String) :
    loadUserData (deleteUser st targetId) targetId = none
    ∧ (∀ u ∈ (deleteUser st targetId).users, u.id ≠ targetId)
    ∧ (∀ u ∈ st.users, u.id ≠ targetId → u ∈ (deleteUser st targetId).users)
    ∧ (∀ k, k ≠ targetId →
        loadUserData (deleteUser st targetId) k = loadUserData st k) := by
  refine ⟨?_, ?_, ?_, ?_⟩
  · simp [loadUserData, deleteUser]
  · intro u hu
    simpa using (List.mem_filter.1 hu).2
  · intro u hu hne
    exact List.mem_filter.2 ⟨hu, by simpa using hne⟩
  · intro k hk
    simp [loadUserData, deleteUser, hk]

/-- C9 witness: deleting bob ("u1") from the concrete store: his data is
gone, guest's record and data survive. -/
theorem deleteUser_spec_witness :
    loadUserData (deleteUser dataStore "u1") "u1" = none
    ∧ guestUser ∈ (deleteUser dataStore "u1").users
    ∧ loadUserData (deleteUser dataStore "u1") "u2" =
        loadUserData dataStore "u2" :=
  ⟨(deleteUser_spec dataStore "u1").1,
   (deleteUser_spec dataStore "u1").2.2.1 guestUser (by decide) (by decide),
   (deleteUser_spec dataStore "u1").2.2.2 "u2" (by decide)⟩

/-- A user list containing no user with the target id is left unchanged
by the first-match password assignment. -/
theorem setPasswordAtFirstMatch_no_match (targetId newPass : String)
    {users : List User} (h : ∀ u ∈ users, u.id ≠ targetId) :
    setPasswordAtFirstMatch targetId newPass users = users := by
  induction users with
  | nil => rfl
  | cons u rest ih =>
    rw [setPasswordAtFirstMatch, if_neg (h u (List.mem_cons_self ..)),
      ih fun u' hu' => h u' (List.mem_cons_of_mem _ hu')]

/-- C10: when no stored user has the target id, `resetUserPassword` is a
no-op: it raises nothing (total function) and leaves the whole storage
state - every user record and password - unchanged. -/
theorem resetUserPassword_missing_noop (st : StorageState)
    (targetId newPass : String) :
    (∀ u ∈ st.users, u.id ≠ targetId) →
    resetUserPassword st targetId newPass = st := by
  intro h
  rw [resetUserPassword, setPasswordAtFirstMatch_no_match targetId newPass h]

/-- C10 witness: resetting the password of an absent id on the concrete
store changes nothing. -/
theorem resetUserPassword_missing_noop_witness :
    resetUserPassword dataStore "zzz" "newpass" = dataStore :=
  resetUserPassword_missing_noop dataStore "zzz" "newpass" (by decide)

end SmartBuddy
